import Mathlib

/-!
Verification of `commands/http/handler.go` (go-ipfs HTTP command handler).

The Go source is shallowly embedded below.  Go byte slices are modelled as
Lean `String`s (one `Char` per byte; all sizes are element counts), the
hijacked connection's `bufio.ReadWriter` as a `WState` (accumulated wire
output plus the writer's sticky error, mirroring `bufio.Writer.err`:
once a write has failed, later writes are dropped and return the same
error), and an `io.Reader` as the list of results its successive `Read`
calls produce (an exhausted list behaves like a reader that keeps
returning `(0, io.EOF)`).
-/

set_option maxRecDepth 4096

/-- "\r\n", the line terminator used throughout the handler. -/
def CRLF : String := "\r\n"

/-- Go `fmt.Sprintf("%x", n)`: lowercase hexadecimal, no padding. -/
def hexStr (n : Nat) : String := String.mk (Nat.toDigits 16 n)

/-- Result of one `Read` call beyond the data: `nil`, `io.EOF`, or another error. -/
inductive RErr where
  | eofMark : RErr
  | errMsg (msg : String) : RErr
deriving DecidableEq, Repr

/-- One `Read` call's outcome: the bytes read (`n = data.length`) and the error. -/
structure ReadStep where
  data : String
  rerr : Option RErr
deriving DecidableEq, Repr

/-- A read returning `n` bytes with a nil error. -/
def rYield (s : String) : ReadStep := ⟨s, none⟩

/-- A read returning `(0, io.EOF)`: clean end-of-source. -/
def rEOF : ReadStep := ⟨"", some RErr.eofMark⟩

/-- State of the hijacked connection's buffered writer: bytes that reach the
wire, and the sticky error (`bufio.Writer.err`); after a failure the bytes of
the failing write and all later writes are dropped. -/
structure WState where
  out : String
  werr : Option String
deriving DecidableEq, Repr

/-- `writer.WriteString` with the return value ignored (as the handler does):
appends unless a sticky error is set. -/
def wWriteString (st : WState) (s : String) : WState :=
  match st.werr with
  | some _ => st
  | none => ⟨st.out ++ s, none⟩

/-- `writer.Write` with its error checked; `failNow` injects the connection
failure the schedule assigns to this call. -/
def wWrite (st : WState) (s : String) (failNow : Option String) :
    WState × Option String :=
  match st.werr with
  | some e => (st, some e)
  | none =>
    match failNow with
    | some e => (⟨st.out, some e⟩, some e)
    | none => (⟨st.out ++ s, none⟩, none)

/-- The loop of `writeChunks` (handler.go:277-303).  `wfail i` is the error,
if any, of the `i`-th payload `w.Write` call (the only write whose error the
loop checks).  For each read: if `n > 0`, write `"%x\r\n"`, the payload
(returning its error if it fails), `"\r\n"`, and flush; then return a non-EOF
read error, break on EOF, and otherwise loop. -/
def writeChunksGo : WState → List ReadStep → (Nat → Option String) → Nat →
    WState × Option String
  | st, [], _, _ => (st, none)
  | st, r :: rest, wfail, i =>
    if r.data.length > 0 then
      let st1 := wWriteString st (hexStr r.data.length ++ CRLF)
      let (st2, we) := wWrite st1 r.data (wfail i)
      match we with
      | some e => (st2, some e)
      | none =>
        let st3 := wWriteString st2 CRLF
        match r.rerr with
        | some RErr.eofMark => (st3, none)
        | some (RErr.errMsg m) => (st3, some m)
        | none => writeChunksGo st3 rest wfail (i + 1)
    else
      match r.rerr with
      | some RErr.eofMark => (st, none)
      | some (RErr.errMsg m) => (st, some m)
      | none => writeChunksGo st rest wfail i

/-- `writeChunks` (handler.go:277-303). -/
def writeChunks (st : WState) (reads : List ReadStep)
    (wfail : Nat → Option String) : WState × Option String :=
  writeChunksGo st reads wfail 0

/-- `strings.Split(s, sep)[0]` for a single-character separator: the prefix
of `s` before the first occurrence of `sep`. -/
def splitHeadList : List Char → Char → List Char
  | [], _ => []
  | c :: cs, sep => if c = sep then [] else c :: splitHeadList cs sep

/-- String wrapper for `splitHeadList`. -/
def splitHead (s : String) (sep : Char) : String :=
  String.mk (splitHeadList s.data sep)

/-- `sanitizedErrStr` (handler.go:305-310): truncate the message at the first
newline, then at the first carriage return. -/
def sanitizedErrStr (msg : String) : String :=
  splitHead (splitHead msg '\n') '\r'

/-- `StreamErrHeader` (handler.go:37). -/
def StreamErrHeader : String := "X-Stream-Error"

/-- Go `net/http`'s `StatusText` for the codes this handler produces. -/
def statusText : Nat → String
  | 200 => "OK"
  | 400 => "Bad Request"
  | 404 => "Not Found"
  | 500 => "Internal Server Error"
  | _ => ""

/-- The status line written at handler.go:253. -/
def statusLine (status : Nat) : String :=
  "HTTP/1.1 " ++ toString status ++ " " ++ statusText status ++ CRLF

/-- `writeResponse` (handler.go:239-275), after a successful hijack.
`headerBlock` is the rendering of `w.Header().Write(writer)`.  Writes the
status line, the headers, a blank line, the chunked body, the terminal
`0\r\n`, the `X-Stream-Error` trailer when the body loop returned an error,
and the closing blank line; returns the wire content and the stream error. -/
def writeResponse (status : Nat) (headerBlock : String)
    (reads : List ReadStep) (wfail : Nat → Option String) :
    String × Option String :=
  let st0 := wWriteString (wWriteString (wWriteString ⟨"", none⟩
    (statusLine status)) headerBlock) CRLF
  let p := writeChunks st0 reads wfail
  let st2 := wWriteString p.1 ("0" ++ CRLF)
  let st3 :=
    match p.2 with
    | some e => wWriteString st2 (StreamErrHeader ++ ": " ++ sanitizedErrStr e ++ CRLF)
    | none => st2
  let st4 := wWriteString st3 CRLF
  (st4.out, p.2)

/-- One chunk record on the wire: lowercase-hex size, CRLF, payload, CRLF. -/
def chunkRecord (s : String) : String :=
  hexStr s.length ++ CRLF ++ s ++ CRLF

/-- Concatenation of a list of strings, in order. -/
def concatStr : List String → String
  | [] => ""
  | s :: rest => s ++ concatStr rest

/-! ## Headers, CORS filtering, mime resolution, and `sendResponse` -/

/-- The outgoing header map `w.Header()`: names to value lists. -/
abbrev Headers := List (String × List String)

/-- Map update, as `w.Header()[k] = vs` / `Header.Set`: replace the entry for
`k` or add one. -/
def hSet (h : Headers) (k : String) (vs : List String) : Headers :=
  match h with
  | [] => [(k, vs)]
  | (k0, vs0) :: rest =>
    if k0 = k then (k, vs) :: rest else (k0, vs0) :: hSet rest k vs

/-- Map lookup in the header map. -/
def hGet (h : Headers) (k : String) : Option (List String) :=
  match h with
  | [] => none
  | (k0, vs0) :: rest => if k0 = k then some vs0 else hGet rest k

/-- `skipAPIHeader` (handler.go:71-80): the Go `switch` matches the three
reserved CORS header names exactly (case-sensitive string equality). -/
def skipAPIHeader (h : String) : Bool :=
  if h = "Access-Control-Allow-Origin" then true
  else if h = "Access-Control-Allow-Methods" then true
  else if h = "Access-Control-Allow-Credentials" then true
  else false

/-- The loop at handler.go:147-151: copy every operator extra header whose
name `skipAPIHeader` rejects into the response header map.  `extra` lists the
entries of the Go map `i.cfg.Headers` (its keys are distinct). -/
def applyAPIHeaders (hdr : Headers) (extra : List (String × List String)) :
    Headers :=
  match extra with
  | [] => hdr
  | (k, vs) :: rest =>
    applyAPIHeaders (if skipAPIHeader k then hdr else hSet hdr k vs) rest

/-- Error classification carried by a command error (`cmds.ErrorType`).
Modelled from the spec: the `commands` package is not under src/; the spec
distinguishes client-caused from other (internal) classifications. -/
inductive ErrorType where
  | errNormal : ErrorType
  | errClient : ErrorType
  | errImplementation : ErrorType
deriving DecidableEq, Repr

/-- A command error (`cmds.Error`): a classification and a message. -/
structure CmdError where
  code : ErrorType
  msg : String
deriving DecidableEq, Repr

/-- The dynamic type of `res.Output()`: an `io.Reader` stream, a value
channel, or a plain materialized value. -/
inductive OutputKind where
  | stream : OutputKind
  | channel : OutputKind
  | value : OutputKind
deriving DecidableEq, Repr

/-- The slice of a `cmds.Response` (and its request's options) that
`sendResponse` reads.  `encVal`/`encFound`/`encErr` model
`res.Request().Option(cmds.EncShort).String()`; `streamChans` the
`stream-channels` boolean option (its lookup errors are ignored);
`readerErr` a failure of `res.Reader()`; `reads` the reads the returned
body source will produce. -/
structure RespModel where
  error : Option CmdError
  output : OutputKind
  length : Nat
  encVal : String
  encFound : Bool
  encErr : Option String
  streamChans : Bool
  readerErr : Option String
  reads : List ReadStep

/-- `mimeTypes` (handler.go:57-61) read through Go map indexing (absent keys
give the zero value `""`).  The keys `cmds.JSON`, `cmds.XML`, `cmds.Text` are
modelled from the spec: the `commands` package is not under src/, and the
spec's table is {json, xml, text}. -/
def mimeLookup (enc : String) : String :=
  if enc = "json" then "application/json"
  else if enc = "xml" then "application/xml"
  else if enc = "text" then "text/plain"
  else ""

/-- `guessMimeType` (handler.go:157-168): propagate an option-lookup error,
fail with "no encoding option set" when the option is absent, otherwise map
the encoding through `mimeTypes`. -/
def guessMimeType (res : RespModel) : Except String String :=
  match res.encErr with
  | some e => Except.error e
  | none =>
    if res.encFound = false then Except.error "no encoding option set"
    else Except.ok (mimeLookup res.encVal)

/-- The content type after the output-kind adjustments in `sendResponse`:
streams blank it (handler.go:199-205); channels force JSON when
stream-channels is set (handler.go:215-221). -/
def classifyMime (res : RespModel) (mime0 : String) : String :=
  match res.output with
  | OutputKind.stream => ""
  | OutputKind.channel => if res.streamChans then "application/json" else mime0
  | OutputKind.value => mime0

/-- The header assembly of `sendResponse` (handler.go:194-226), applied to
the header map as it stands after CORS and operator headers: Content-Length
when the length is known, the stream and channel markers, Content-Type when
the resolved mime is non-empty, and always Transfer-Encoding: chunked. -/
def assembleHeaders (hdr0 : Headers) (res : RespModel) (mime0 : String) :
    Headers :=
  let h1 := if res.length > 0 then
    hSet hdr0 "Content-Length" [toString res.length] else hdr0
  let h2 := match res.output with
    | OutputKind.stream => hSet h1 "X-Stream-Output" ["1"]
    | _ => h1
  let h3 := match res.output with
    | OutputKind.channel => hSet h2 "X-Chunked-Output" ["1"]
    | _ => h2
  let mime := classifyMime res mime0
  let h4 := if mime = "" then h3 else hSet h3 "Content-Type" [mime]
  hSet h4 "Transfer-Encoding" ["chunked"]

/-- Rendering of `w.Header().Write(writer)` at handler.go:256: one
`name: value` line per value, each terminated by CRLF. -/
def renderHeaders (h : Headers) : String :=
  concatStr (h.map (fun p => concatStr (p.2.map
    (fun v => p.1 ++ ": " ++ v ++ CRLF))))

/-- Observable outcome of `sendResponse`: an error written through the
normal (non-hijacked) path by `http.Error`, headers only (HEAD), or a
hijacked streamed body with its wire bytes and the logged stream error. -/
inductive SendOutcome where
  | earlyError (msg : String) (httpStatus : Nat) : SendOutcome
  | headersOnly (hdrs : Headers) : SendOutcome
  | streamed (hdrs : Headers) (status : Nat) (wire : String)
      (streamErr : Option String) : SendOutcome
deriving Repr

/-- `sendResponse` (handler.go:170-235): resolve the mime (500 on failure),
derive the status from the result's error, obtain the body source (500 on
failure), assemble headers, stop after headers for HEAD, otherwise hand the
connection to `writeResponse`. -/
def sendResponse (method : String) (hdr0 : Headers) (res : RespModel)
    (wfail : Nat → Option String) : SendOutcome :=
  match guessMimeType res with
  | Except.error e => SendOutcome.earlyError e 500
  | Except.ok mime0 =>
    let status :=
      match res.error with
      | none => 200
      | some e => if e.code = ErrorType.errClient then 400 else 500
    match res.readerErr with
    | some e => SendOutcome.earlyError e 500
    | none =>
      let hdrs := assembleHeaders hdr0 res mime0
      if method = "HEAD" then SendOutcome.headersOnly hdrs
      else
        let p := writeResponse status (renderHeaders hdrs) res.reads wfail
        SendOutcome.streamed hdrs status p.1 p.2

/-- The status carried by a streamed outcome, if any. -/
def sentStatus : SendOutcome → Option Nat
  | SendOutcome.streamed _ s _ _ => some s
  | _ => none

/-- The hijacked body write of an outcome: `none` when `writeResponse` was
never invoked (no hijack, no body bytes). -/
def hijackedBody : SendOutcome → Option (String × Option String)
  | SendOutcome.streamed _ _ w r => some (w, r)
  | _ => none

/-- The header map of an outcome that got past the early-error returns. -/
def outcomeHeaders : SendOutcome → Option Headers
  | SendOutcome.headersOnly h => some h
  | SendOutcome.streamed h _ _ _ => some h
  | _ => none

/-! ## `NewHandler` configuration defaulting -/

/-- `localhostOrigins` (handler.go:50-55). -/
def localhostOrigins : List String :=
  ["http://127.0.0.1", "https://127.0.0.1",
   "http://localhost", "https://localhost"]

/-- The fields of `cors.Options` that `NewHandler` touches; `none` is a Go
nil slice. -/
structure CorsOptions where
  allowedMethods : Option (List String)
  allowedOrigins : Option (List String)
deriving DecidableEq, Repr

/-- `ServerConfig` (handler.go:63-69); `corsOpts = none` is a nil pointer. -/
structure ServerConfig where
  headers : List (String × List String)
  corsOpts : Option CorsOptions
deriving DecidableEq, Repr

/-- The effective configuration a handler is built with. -/
structure EffConfig where
  headers : List (String × List String)
  allowedMethods : List String
  allowedOrigins : List String
deriving DecidableEq, Repr

/-- The nil-defaulting of `NewHandler` (handler.go:82-106): a nil config
becomes empty, a nil CORS options struct is allocated, nil AllowedMethods
defaults to GET/POST/PUT, and nil AllowedOrigins to `localhostOrigins`. -/
def newHandlerCfg (cfg : Option ServerConfig) : EffConfig :=
  let c := match cfg with
    | none => ServerConfig.mk [] none
    | some c => c
  let opts := match c.corsOpts with
    | none => CorsOptions.mk none none
    | some o => o
  let methods := match opts.allowedMethods with
    | none => ["GET", "POST", "PUT"]
    | some ms => ms
  let origins := match opts.allowedOrigins with
    | none => localhostOrigins
    | some os => os
  EffConfig.mk c.headers methods origins

/-! ## String helper lemmas -/

theorem strAssoc (a b c : String) : a ++ b ++ c = a ++ (b ++ c) :=
  String.ext (by simp [String.data_append, List.append_assoc])

theorem strAppendEmpty (a : String) : a ++ "" = a :=
  String.ext (by simp [String.data_append])

theorem strEmptyAppend (a : String) : "" ++ a = a :=
  String.ext (by simp [String.data_append])

theorem strLenPos (s : String) (h : s ≠ "") : 0 < s.length := by
  cases s with
  | mk l =>
    cases l with
    | nil => exact absurd rfl h
    | cons c cs => simp [String.length]

/-! ## C3: sanitization lemmas -/

theorem splitHeadList_eq_takeWhile (l : List Char) (sep : Char) :
    splitHeadList l sep = l.takeWhile (fun c => c ≠ sep) := by
  induction l with
  | nil => rfl
  | cons c cs ih =>
    by_cases hc : c = sep
    · simp [splitHeadList, List.takeWhile, hc]
    · simp [splitHeadList, List.takeWhile, hc, ih]

theorem splitHeadList_comm_nested (l : List Char) :
    splitHeadList (splitHeadList l '\n') '\r'
      = l.takeWhile (fun c => c ≠ '\n' && c ≠ '\r') := by
  induction l with
  | nil => rfl
  | cons c cs ih =>
    by_cases hn : c = '\n'
    · simp [splitHeadList, List.takeWhile, hn]
    · by_cases hr : c = '\r'
      · simp [splitHeadList, List.takeWhile, hn, hr]
      · simp [splitHeadList, List.takeWhile, hn, hr, ih]

/-- C3.  `sanitizedErrStr` truncates the message at the first newline or
carriage return, and its output (the trailer text written after
"X-Stream-Error: ") contains neither a CR nor an LF character. -/
theorem claim_C3 (msg : String) :
    (sanitizedErrStr msg).data
        = msg.data.takeWhile (fun c => c ≠ '\n' && c ≠ '\r')
      ∧ ((sanitizedErrStr msg).data.all (fun c => c ≠ '\n' && c ≠ '\r')) = true := by
  have hd : (sanitizedErrStr msg).data
      = msg.data.takeWhile (fun c => c ≠ '\n' && c ≠ '\r') := by
    simp [sanitizedErrStr, splitHead, splitHeadList_comm_nested]
  refine ⟨hd, ?_⟩
  rw [hd, List.all_eq_true]
  intro c hc
  exact List.mem_takeWhile_imp (p := fun c => c ≠ '\n' && c ≠ '\r') hc

/-! ## C5 / C9: header-map lemmas -/

theorem hGet_hSet_self (h : Headers) (k : String) (vs : List String) :
    hGet (hSet h k vs) k = some vs := by
  induction h with
  | nil => simp [hSet, hGet]
  | cons p rest ih =>
    by_cases hk : p.1 = k
    · simp [hSet, hGet, hk]
    · simp [hSet, hGet, hk, ih]

theorem hGet_hSet_ne (h : Headers) (k k0 : String) (vs : List String)
    (hne : k0 ≠ k) : hGet (hSet h k vs) k0 = hGet h k0 := by
  induction h with
  | nil => simp [hSet, hGet, Ne.symm hne]
  | cons p rest ih =>
    by_cases hk : p.1 = k
    · simp [hSet, hGet, hk, hne, Ne.symm hne]
    · by_cases hk0 : p.1 = k0
      · simp [hSet, hGet, hk, hk0, hne]
      · simp [hSet, hGet, hk, hk0, ih]

theorem applyAPIHeaders_skipped (extra : List (String × List String))
    (hdr : Headers) (k : String) (hk : skipAPIHeader k = true) :
    hGet (applyAPIHeaders hdr extra) k = hGet hdr k := by
  induction extra generalizing hdr with
  | nil => rfl
  | cons p rest ih =>
    by_cases hs : skipAPIHeader p.1 = true
    · simp [applyAPIHeaders, hs, ih]
    · have hne : p.1 ≠ k := fun he => hs (he ▸ hk)
      simp [applyAPIHeaders, hs, ih, hGet_hSet_ne _ _ _ _ (Ne.symm hne)]

theorem applyAPIHeaders_notkey (extra : List (String × List String))
    (hdr : Headers) (k : String) (hk : k ∉ extra.map Prod.fst) :
    hGet (applyAPIHeaders hdr extra) k = hGet hdr k := by
  induction extra generalizing hdr with
  | nil => rfl
  | cons p rest ih =>
    simp only [List.map_cons, List.mem_cons] at hk
    push_neg at hk
    by_cases hs : skipAPIHeader p.1 = true
    · simp [applyAPIHeaders, hs, ih _ hk.2]
    · simp [applyAPIHeaders, hs, ih _ hk.2,
        hGet_hSet_ne _ _ _ _ (Ne.symm (fun he => hk.1 he.symm))]

theorem applyAPIHeaders_copied (extra : List (String × List String))
    (hdr : Headers) (k : String) (vs : List String)
    (hmem : (k, vs) ∈ extra) (hk : skipAPIHeader k = false)
    (hnd : (extra.map Prod.fst).Nodup) :
    hGet (applyAPIHeaders hdr extra) k = some vs := by
  induction extra generalizing hdr with
  | nil => exact absurd hmem (List.not_mem_nil _)
  | cons p rest ih =>
    simp only [List.map_cons, List.nodup_cons] at hnd
    rcases List.mem_cons.mp hmem with hhd | htl
    · subst hhd
      have hnotin : k ∉ rest.map Prod.fst := by
        intro hin; exact hnd.1 hin
      rw [applyAPIHeaders]
      simp only [hk, Bool.false_eq_true, if_false]
      rw [applyAPIHeaders_notkey rest _ k hnotin, hGet_hSet_self]
    · by_cases hs : skipAPIHeader p.1 = true
      · simpa [applyAPIHeaders, hs] using ih _ htl hnd.2
      · simpa [applyAPIHeaders, hs] using ih _ htl hnd.2

/-- C5.  Applying the operator extra-headers map never copies an entry named
exactly one of the reserved CORS triad (their entries in the outgoing map are
whatever they were before), while every other entry of the map is copied. -/
theorem claim_C5 (hdr : Headers) (extra : List (String × List String)) :
    (∀ k, skipAPIHeader k = true →
        hGet (applyAPIHeaders hdr extra) k = hGet hdr k)
      ∧ (∀ k vs, (k, vs) ∈ extra → skipAPIHeader k = false →
        (extra.map Prod.fst).Nodup →
        hGet (applyAPIHeaders hdr extra) k = some vs) := by
  refine ⟨fun k hk => applyAPIHeaders_skipped extra hdr k hk, ?_⟩
  intro k vs hmem hk hnd
  exact applyAPIHeaders_copied extra hdr k vs hmem hk hnd

/-- Witness for C5 at a concrete map: the reserved name is dropped, the other
entry is copied. -/
theorem claim_C5_witness :
    hGet (applyAPIHeaders []
        [("Access-Control-Allow-Origin", ["*"]), ("Server", ["go-ipfs"])])
      "Access-Control-Allow-Origin" = hGet [] "Access-Control-Allow-Origin"
    ∧ hGet (applyAPIHeaders []
        [("Access-Control-Allow-Origin", ["*"]), ("Server", ["go-ipfs"])])
      "Server" = some ["go-ipfs"] :=
  ⟨(claim_C5 [] [("Access-Control-Allow-Origin", ["*"]), ("Server", ["go-ipfs"])]).1
      "Access-Control-Allow-Origin" (by decide),
    (claim_C5 [] [("Access-Control-Allow-Origin", ["*"]), ("Server", ["go-ipfs"])]).2
      "Server" ["go-ipfs"] (by simp) (by decide) (by decide)⟩

/-- C9.  The reserved-CORS-header filter compares names byte-for-byte: any
name other than the three exact mixed-case strings — in particular a name
differing only in letter case, such as "access-control-allow-origin" — is not
skipped, and its entry is written into the outgoing header map under that
exact key. -/
theorem claim_C9 :
    skipAPIHeader "access-control-allow-origin" = false
      ∧ (∀ (k : String) (vs : List String) (hdr : Headers),
        k ≠ "Access-Control-Allow-Origin" →
        k ≠ "Access-Control-Allow-Methods" →
        k ≠ "Access-Control-Allow-Credentials" →
        skipAPIHeader k = false
          ∧ hGet (applyAPIHeaders hdr [(k, vs)]) k = some vs) := by
  refine ⟨by decide, ?_⟩
  intro k vs hdr h1 h2 h3
  have hsk : skipAPIHeader k = false := by
    simp [skipAPIHeader, h1, h2, h3]
  refine ⟨hsk, ?_⟩
  simp [applyAPIHeaders, hsk, hGet_hSet_self]

/-- Witness for C9: the lowercase variant of the origin header is copied
under its exact lowercase key. -/
theorem claim_C9_witness :
    skipAPIHeader "access-control-allow-origin" = false
      ∧ hGet (applyAPIHeaders [] [("access-control-allow-origin", ["*"])])
        "access-control-allow-origin" = some ["*"] :=
  ⟨(claim_C9.2 "access-control-allow-origin" ["*"] []
      (by decide) (by decide) (by decide)).1,
    (claim_C9.2 "access-control-allow-origin" ["*"] []
      (by decide) (by decide) (by decide)).2⟩

/-- C10.  `NewHandler` tolerates a nil config and nil CORS fields: the
defaulting is total, and whenever `AllowedMethods` (resp. `AllowedOrigins`)
is nil — in particular for a nil `ServerConfig` or nil `CORSOpts` — the
effective value is GET/POST/PUT (resp. the four-entry localhost list);
non-nil fields are kept as given. -/
theorem claim_C10 (cfg : Option ServerConfig) :
    ((cfg.bind ServerConfig.corsOpts).bind CorsOptions.allowedMethods = none →
        (newHandlerCfg cfg).allowedMethods = ["GET", "POST", "PUT"])
      ∧ ((cfg.bind ServerConfig.corsOpts).bind CorsOptions.allowedOrigins = none →
        (newHandlerCfg cfg).allowedOrigins = localhostOrigins)
      ∧ (∀ ms, (cfg.bind ServerConfig.corsOpts).bind CorsOptions.allowedMethods
          = some ms → (newHandlerCfg cfg).allowedMethods = ms)
      ∧ (∀ os, (cfg.bind ServerConfig.corsOpts).bind CorsOptions.allowedOrigins
          = some os → (newHandlerCfg cfg).allowedOrigins = os) := by
  match cfg with
  | none => simp [newHandlerCfg]
  | some c =>
    match hco : c.corsOpts with
    | none => simp [newHandlerCfg, hco]
    | some o =>
      match hm : o.allowedMethods, ho : o.allowedOrigins with
      | none, none => simp [newHandlerCfg, hco, hm, ho]
      | none, some os => simp [newHandlerCfg, hco, hm, ho]
      | some ms, none => simp [newHandlerCfg, hco, hm, ho]
      | some ms, some os => simp [newHandlerCfg, hco, hm, ho]

/-- Witness for C10: a nil config yields the default methods and the
localhost origin list. -/
theorem claim_C10_witness :
    (newHandlerCfg none).allowedMethods = ["GET", "POST", "PUT"]
      ∧ (newHandlerCfg none).allowedOrigins = localhostOrigins :=
  ⟨(claim_C10 none).1 rfl, (claim_C10 none).2.1 rfl⟩

/-! ## C6 / C7 / C8: sendResponse -/

/-- C6.  When `sendResponse` reaches the body-writing path, the status it
streams is derived from the Result's error: 200 with no error, 400 for a
client-classified error, 500 for any other classification. -/
theorem claim_C6 (method : String) (hdr0 : Headers) (res : RespModel)
    (wfail : Nat → Option String)
    (h1 : res.encErr = none) (h2 : res.encFound = true)
    (h3 : res.readerErr = none) (hm : method ≠ "HEAD") :
    (res.error = none →
        sentStatus (sendResponse method hdr0 res wfail) = some 200)
      ∧ (∀ e, res.error = some e → e.code = ErrorType.errClient →
        sentStatus (sendResponse method hdr0 res wfail) = some 400)
      ∧ (∀ e, res.error = some e → e.code ≠ ErrorType.errClient →
        sentStatus (sendResponse method hdr0 res wfail) = some 500) := by
  refine ⟨fun he => ?_, fun e he hc => ?_, fun e he hc => ?_⟩
  all_goals
    simp [sendResponse, guessMimeType, h1, h2, h3, hm, he, sentStatus]
  · simp [hc]
  · simp [hc]

/-- Witness for C6: a client-classified error streams with status 400. -/
theorem claim_C6_witness :
    sentStatus (sendResponse "POST" []
      (RespModel.mk (some (CmdError.mk ErrorType.errClient "bad arg"))
        OutputKind.value 0 "json" true none false none [rEOF])
      (fun _ => none)) = some 400 :=
  (claim_C6 "POST" []
      (RespModel.mk (some (CmdError.mk ErrorType.errClient "bad arg"))
        OutputKind.value 0 "json" true none false none [rEOF])
      (fun _ => none) rfl rfl rfl (by decide)).2.1
    (CmdError.mk ErrorType.errClient "bad arg") rfl rfl

/-- C7.  A HEAD request never reaches `writeResponse`: no path of
`sendResponse` with method "HEAD" hijacks the connection or produces body
bytes, and past the early-error returns the outcome is exactly the assembled
header set. -/
theorem claim_C7 (hdr0 : Headers) (res : RespModel)
    (wfail : Nat → Option String) :
    hijackedBody (sendResponse "HEAD" hdr0 res wfail) = none
      ∧ (res.encErr = none → res.encFound = true → res.readerErr = none →
        sendResponse "HEAD" hdr0 res wfail
          = SendOutcome.headersOnly
            (assembleHeaders hdr0 res (mimeLookup res.encVal))) := by
  constructor
  · match hg : guessMimeType res with
    | Except.error e => simp [sendResponse, hg, hijackedBody]
    | Except.ok m =>
      match hr : res.readerErr with
      | some e => simp [sendResponse, hg, hr, hijackedBody]
      | none => simp [sendResponse, hg, hr, hijackedBody]
  · intro h1 h2 h3
    simp [sendResponse, guessMimeType, h1, h2, h3]

/-- Witness for C7: a HEAD request for a json-encoded value result yields
headers only. -/
theorem claim_C7_witness :
    hijackedBody (sendResponse "HEAD" []
        (RespModel.mk none OutputKind.value 0 "json" true none false none [rEOF])
        (fun _ => none)) = none
      ∧ sendResponse "HEAD" []
          (RespModel.mk none OutputKind.value 0 "json" true none false none [rEOF])
          (fun _ => none)
        = SendOutcome.headersOnly
          (assembleHeaders []
            (RespModel.mk none OutputKind.value 0 "json" true none false none [rEOF])
            (mimeLookup "json")) :=
  ⟨(claim_C7 []
      (RespModel.mk none OutputKind.value 0 "json" true none false none [rEOF])
      (fun _ => none)).1,
    (claim_C7 []
      (RespModel.mk none OutputKind.value 0 "json" true none false none [rEOF])
      (fun _ => none)).2 rfl rfl rfl⟩

/-- C8.  `guessMimeType` fails with "no encoding option set" when the
encoding option is absent; when present, json/xml/text map through the fixed
table and every other encoding resolves to ""; and an empty resolved mime
leaves the assembled headers without a Content-Type entry. -/
theorem claim_C8 :
    (∀ res : RespModel, res.encErr = none → res.encFound = false →
        guessMimeType res = Except.error "no encoding option set")
      ∧ (∀ res : RespModel, res.encErr = none → res.encFound = true →
        guessMimeType res = Except.ok (mimeLookup res.encVal))
      ∧ mimeLookup "json" = "application/json"
      ∧ mimeLookup "xml" = "application/xml"
      ∧ mimeLookup "text" = "text/plain"
      ∧ (∀ enc : String, enc ≠ "json" → enc ≠ "xml" → enc ≠ "text" →
        mimeLookup enc = "")
      ∧ (∀ (hdr0 : Headers) (res : RespModel),
        mimeLookup res.encVal = "" → res.output = OutputKind.value →
        hGet hdr0 "Content-Type" = none →
        hGet (assembleHeaders hdr0 res (mimeLookup res.encVal))
          "Content-Type" = none) := by
  refine ⟨fun res h1 h2 => by simp [guessMimeType, h1, h2],
    fun res h1 h2 => by simp [guessMimeType, h1, h2],
    by decide, by decide, by decide,
    fun enc h1 h2 h3 => by simp [mimeLookup, h1, h2, h3],
    fun hdr0 res hmime hout hct => ?_⟩
  rw [assembleHeaders]
  simp only [hout, hmime, classifyMime, if_pos rfl]
  rw [hGet_hSet_ne _ _ _ _ (by decide)]
  by_cases hl : res.length > 0
  · simp only [hl, if_true]
    rw [hGet_hSet_ne _ _ _ _ (by decide)]
    exact hct
  · simp only [hl, if_false]
    exact hct

/-- Witness for C8: absent option fails; unknown encoding "cbor" resolves to
"" and sets no Content-Type. -/
theorem claim_C8_witness :
    guessMimeType
        (RespModel.mk none OutputKind.value 0 "json" false none false none [])
      = Except.error "no encoding option set"
      ∧ mimeLookup "cbor" = ""
      ∧ hGet (assembleHeaders []
          (RespModel.mk none OutputKind.value 3 "cbor" true none false none [])
          (mimeLookup "cbor")) "Content-Type" = none :=
  ⟨claim_C8.1
      (RespModel.mk none OutputKind.value 0 "json" false none false none []) rfl rfl,
    claim_C8.2.2.2.2.2.1 "cbor" (by decide) (by decide) (by decide),
    claim_C8.2.2.2.2.2.2 []
      (RespModel.mk none OutputKind.value 3 "cbor" true none false none [])
      (by decide) rfl rfl⟩

/-! ## C1 / C2 / C4: the chunk-writing loop -/

theorem wcg_yield (s : String) (hs : 0 < s.length) (rest : List ReadStep)
    (out : String) (wfail : Nat → Option String) (i : Nat)
    (hw : wfail i = none) :
    writeChunksGo ⟨out, none⟩ (rYield s :: rest) wfail i
      = writeChunksGo ⟨out ++ chunkRecord s, none⟩ rest wfail (i + 1) := by
  simp only [writeChunksGo, rYield, hs, if_pos, wWriteString, wWrite, hw,
    chunkRecord, strAssoc]

theorem wcg_eofStep (out : String) (wfail : Nat → Option String) (i : Nat) :
    writeChunksGo ⟨out, none⟩ [rEOF] wfail i = (⟨out, none⟩, none) := by
  simp [writeChunksGo, rEOF]

theorem wcg_errStep (msg out : String) (wfail : Nat → Option String)
    (i : Nat) :
    writeChunksGo ⟨out, none⟩ [ReadStep.mk "" (some (RErr.errMsg msg))] wfail i
      = (⟨out, none⟩, some msg) := by
  simp [writeChunksGo]

theorem wcg_yieldList (datas : List String) (h : ∀ s ∈ datas, s ≠ "")
    (out : String) (i : Nat) :
    writeChunksGo ⟨out, none⟩ (datas.map rYield ++ [rEOF]) (fun _ => none) i
      = (⟨out ++ concatStr (datas.map chunkRecord), none⟩, none) := by
  induction datas generalizing out i with
  | nil => simp [wcg_eofStep, concatStr, strAppendEmpty]
  | cons d ds ih =>
    have hd : 0 < d.length := strLenPos d (h d (List.mem_cons_self d ds))
    have hds : ∀ s ∈ ds, s ≠ "" := fun s hs => h s (List.mem_cons_of_mem d hs)
    rw [List.map_cons, List.cons_append,
      wcg_yield d hd _ out (fun _ => none) i rfl, ih hds]
    simp [concatStr, strAssoc]

theorem wcg_yieldListFail (datas : List String) (h : ∀ s ∈ datas, s ≠ "")
    (msg out : String) (i : Nat) :
    writeChunksGo ⟨out, none⟩
        (datas.map rYield ++ [ReadStep.mk "" (some (RErr.errMsg msg))])
        (fun _ => none) i
      = (⟨out ++ concatStr (datas.map chunkRecord), none⟩, some msg) := by
  induction datas generalizing out i with
  | nil => simp [wcg_errStep, concatStr, strAppendEmpty]
  | cons d ds ih =>
    have hd : 0 < d.length := strLenPos d (h d (List.mem_cons_self d ds))
    have hds : ∀ s ∈ ds, s ≠ "" := fun s hs => h s (List.mem_cons_of_mem d hs)
    rw [List.map_cons, List.cons_append,
      wcg_yield d hd _ out (fun _ => none) i rfl, ih hds]
    simp [concatStr, strAssoc]

/-- C1.  For a body source yielding N non-empty reads then a clean EOF, with
no connection failure, `writeResponse` emits — after the status line and
header block — exactly the N chunk records in read order (lowercase-hex size,
CRLF, payload, CRLF, size = that read's byte count), then one terminal
`0\r\n`, no trailer, and the final CRLF; and it reports success. -/
theorem claim_C1 (status : Nat) (headerBlock : String) (datas : List String)
    (h : ∀ s ∈ datas, s ≠ "") :
    writeResponse status headerBlock (datas.map rYield ++ [rEOF])
        (fun _ => none)
      = (statusLine status ++ headerBlock ++ CRLF
          ++ concatStr (datas.map chunkRecord) ++ "0" ++ CRLF ++ CRLF,
        none) := by
  simp only [writeResponse, writeChunks, wWriteString,
    wcg_yieldList datas h _ 0, strAssoc, strEmptyAppend]

/-- Witness for C1: two reads "ab" and "c" produce records `2\r\nab\r\n` and
`1\r\nc\r\n` then `0\r\n\r\n`. -/
theorem claim_C1_witness :
    writeResponse 200 "" (["ab", "c"].map rYield ++ [rEOF]) (fun _ => none)
      = (statusLine 200 ++ "" ++ CRLF
          ++ concatStr (["ab", "c"].map chunkRecord) ++ "0" ++ CRLF ++ CRLF,
        none) :=
  claim_C1 200 "" ["ab", "c"] (by decide)

/-- C4.  A read returning 0 bytes with a nil error is a no-op iteration of
the chunk loop (no record, no termination); the {10,0,5}-then-EOF source
yields exactly the two records with hex sizes "a" and "5"; and an entirely
empty source still yields the header block, the terminal `0\r\n`, and the
closing blank line. -/
theorem claim_C4 :
    (∀ (st : WState) (rest : List ReadStep) (wfail : Nat → Option String)
        (i : Nat),
      writeChunksGo st (rYield "" :: rest) wfail i
        = writeChunksGo st rest wfail i)
      ∧ writeResponse 200 ""
          [rYield "0123456789", rYield "", rYield "abcde", rEOF]
          (fun _ => none)
        = ("HTTP/1.1 200 OK\r\n" ++ "\r\n"
            ++ "a\r\n" ++ "0123456789" ++ "\r\n"
            ++ "5\r\n" ++ "abcde" ++ "\r\n" ++ "0\r\n" ++ "\r\n", none)
      ∧ writeResponse 200 "" [rEOF] (fun _ => none)
        = ("HTTP/1.1 200 OK\r\n" ++ "\r\n" ++ "0\r\n" ++ "\r\n", none) := by
  refine ⟨fun st rest wfail i => ?_, by decide, by decide⟩
  simp [writeChunksGo, rYield]

/-- Counterexample to C2: with a source whose reads are all clean (one yield,
then EOF — no read returns a non-io.EOF error) but whose connection rejects
the first payload write, `writeResponse` still returns a non-nil error
("boom"): the loop-terminating write failure IS reported, so "non-nil error
iff a read failed" is false. -/
theorem claim_C2_counterexample :
    (writeResponse 200 "" [rYield "ab", rEOF]
        (fun i => if i = 0 then some "boom" else none)).2 = some "boom"
      ∧ ([rYield "ab", rEOF].all (fun r =>
          match r.rerr with
          | some (RErr.errMsg _) => false
          | _ => true)) = true := by
  constructor
  · decide
  · decide

/-- C2 amended.  `writeResponse` returns a non-nil error (and attempts the
X-Stream-Error trailer) iff either a read failed with a non-io.EOF error or a
checked payload write failed; a clean end-of-source is reported as success
with no trailer; after a write failure the returned error is the write error
and the writer's sticky error keeps the trailer (and terminal chunk) off the
wire. -/
theorem claim_C2_amended :
    (∀ (status : Nat) (hb : String) (datas : List String),
      (∀ s ∈ datas, s ≠ "") →
      writeResponse status hb (datas.map rYield ++ [rEOF]) (fun _ => none)
        = (statusLine status ++ hb ++ CRLF
            ++ concatStr (datas.map chunkRecord) ++ "0" ++ CRLF ++ CRLF,
          none))
      ∧ (∀ (status : Nat) (hb msg : String) (datas : List String),
        (∀ s ∈ datas, s ≠ "") →
        writeResponse status hb
            (datas.map rYield ++ [ReadStep.mk "" (some (RErr.errMsg msg))])
            (fun _ => none)
          = (statusLine status ++ hb ++ CRLF
              ++ concatStr (datas.map chunkRecord) ++ "0" ++ CRLF
              ++ StreamErrHeader ++ ": " ++ sanitizedErrStr msg ++ CRLF
              ++ CRLF,
            some msg))
      ∧ (∀ (status : Nat) (hb s e : String), s ≠ "" →
        writeResponse status hb [rYield s, rEOF]
            (fun i => if i = 0 then some e else none)
          = (statusLine status ++ hb ++ CRLF ++ hexStr s.length ++ CRLF,
            some e)) := by
  refine ⟨fun status hb datas h => ?_, fun status hb msg datas h => ?_,
    fun status hb s e hs => ?_⟩
  · simp only [writeResponse, writeChunks, wWriteString,
      wcg_yieldList datas h _ 0, strAssoc, strEmptyAppend]
  · simp only [writeResponse, writeChunks, wWriteString,
      wcg_yieldListFail datas h msg _ 0, strAssoc, strEmptyAppend]
  · have hlen : 0 < s.length := strLenPos s hs
    simp only [writeResponse, writeChunks, writeChunksGo, rYield, hlen,
      if_pos, wWriteString, wWrite, if_true, reduceIte, strAssoc,
      strEmptyAppend]

/-- Witness for C2 amended: a clean one-read source succeeds with no
trailer; a source failing with "boom\r\ndata" after one read gets the
sanitized trailer and a reported error; a one-read source on a dead
connection reports the write error with nothing after the hex size line. -/
theorem claim_C2_amended_witness :
    writeResponse 200 "" (["x"].map rYield ++ [rEOF]) (fun _ => none)
      = (statusLine 200 ++ "" ++ CRLF ++ concatStr (["x"].map chunkRecord)
          ++ "0" ++ CRLF ++ CRLF, none)
      ∧ writeResponse 200 ""
          (["x"].map rYield ++ [ReadStep.mk "" (some (RErr.errMsg "boom\r\ndata"))])
          (fun _ => none)
        = (statusLine 200 ++ "" ++ CRLF ++ concatStr (["x"].map chunkRecord)
            ++ "0" ++ CRLF ++ StreamErrHeader ++ ": "
            ++ sanitizedErrStr "boom\r\ndata" ++ CRLF ++ CRLF, some "boom\r\ndata")
      ∧ writeResponse 200 "" [rYield "ab", rEOF]
          (fun i => if i = 0 then some "gone" else none)
        = (statusLine 200 ++ "" ++ CRLF ++ hexStr ("ab" : String).length ++ CRLF,
          some "gone") :=
  ⟨claim_C2_amended.1 200 "" ["x"] (by decide),
    claim_C2_amended.2.1 200 "" "boom\r\ndata" ["x"] (by decide),
    claim_C2_amended.2.2 200 "" "ab" "gone" (by decide)⟩
